import Mathlib

/-!
Verification of the HDB resale data-transformation pipeline
(src/data_transformation: feature_engineering.py, data_cleaning.py,
data_pipeline.py).

The Python source is shallowly embedded: DataFrames become lists of records,
floating-point coordinates and distances become rationals, the external
haversine library call becomes an abstract distance-function parameter, and
the external HTTP layer becomes an explicit outcome value fed to the embedded
request handler.  Fallible Python code (exceptions) is embedded as
Option-returning functions.
-/

namespace HDB

/-- A row of one of the candidate-location tables (MRT_LatLong.csv,
Mall_LatLong.csv, School_LatLong.csv): columns Address, Lat, Long. -/
structure Candidate where
  address : String
  lat : ℚ
  long : ℚ
deriving DecidableEq, Repr

/-- Embedding of numpy argmin over the nonempty list of distances
d :: ds: returns the pair (index, value) of the first occurrence of the
minimum, exactly the tie-breaking behaviour of np.argmin
(feature_engineering.py line 47). -/
def argminD (d : ℚ) : List ℚ → ℕ × ℚ
  | [] => (0, d)
  | e :: ds =>
    let p := argminD e ds
    if d ≤ p.2 then (0, d) else (p.1 + 1, p.2)

/-- Embedding of nearest_loc (feature_engineering.py lines 30-50).
The haversine call on each candidate row is abstracted as the distance
function parameter dist (the haversine library is external to the
repository); the distance list over all rows is
dist(hdb, c0) :: rest.map dist, and argminD over it is np.argmin.
np.argmin raises ValueError when the candidate table is empty, embedded as
the none branch; the within-1km flag and the iloc row access follow
lines 48-50. -/
def nearest_loc (dist : ℚ → ℚ → ℚ → ℚ → ℚ) (hdb_lat hdb_lon : ℚ)
    (loc_df : List Candidate) : Option (String × ℚ × ℚ × Option Bool) :=
  match loc_df with
  | [] => none
  | c0 :: rest =>
    let p := argminD (dist hdb_lat hdb_lon c0.lat c0.long)
      (rest.map (fun loc => dist hdb_lat hdb_lon loc.lat loc.long))
    let within_1km : Option Bool := if p.2 = 0 then none else some (decide (p.2 ≤ 1))
    match (c0 :: rest)[p.1]? with
    | none => none
    | some nearest => some (nearest.address, nearest.lat, nearest.long, within_1km)

theorem argminD_get (d : ℚ) (ds : List ℚ) :
    (d :: ds)[(argminD d ds).1]? = some (argminD d ds).2 := by
  induction ds generalizing d with
  | nil => simp [argminD]
  | cons e t ih =>
    by_cases h : d ≤ (argminD e t).2
    · simp [argminD, h]
    · simpa [argminD, h] using ih e

theorem argminD_le (d : ℚ) (ds : List ℚ) :
    ∀ (j : ℕ) (v : ℚ), (d :: ds)[j]? = some v → (argminD d ds).2 ≤ v := by
  induction ds generalizing d with
  | nil =>
    intro j v hj
    match j, hj with
    | 0, hj => simp_all [argminD]
  | cons e t ih =>
    intro j v hj
    by_cases h : d ≤ (argminD e t).2
    · match j, hj with
      | 0, hj =>
        simp at hj
        simp [argminD, h, ← hj]
      | j + 1, hj =>
        simp at hj
        have := ih e j v hj
        simpa [argminD, h] using le_trans h this
    · match j, hj with
      | 0, hj =>
        simp at hj
        simpa [argminD, h, ← hj] using le_of_lt (lt_of_not_le h)
      | j + 1, hj =>
        simp at hj
        simpa [argminD, h] using ih e j v hj

theorem argminD_first (d : ℚ) (ds : List ℚ) :
    ∀ (j : ℕ) (v : ℚ), j < (argminD d ds).1 → (d :: ds)[j]? = some v →
      (argminD d ds).2 < v := by
  induction ds generalizing d with
  | nil => simp [argminD]
  | cons e t ih =>
    intro j v hlt hj
    by_cases h : d ≤ (argminD e t).2
    · simp [argminD, h] at hlt
    · simp only [argminD, h, if_false] at hlt ⊢
      match j, hj with
      | 0, hj =>
        simp at hj
        simpa [← hj] using lt_of_not_le h
      | j + 1, hj =>
        simp at hj
        exact ih e j v (by omega) hj

/-- Core characterisation of nearest_loc on a nonempty candidate table:
it returns the fields of the candidate at the first index attaining the
minimum computed distance, together with the tri-state within-1km flag
computed from that minimum distance. -/
theorem nearest_loc_core (dist : ℚ → ℚ → ℚ → ℚ → ℚ) (la lo : ℚ)
    (df : List Candidate) (hne : df ≠ []) :
    ∃ (i : ℕ) (c : Candidate) (m : ℚ), df[i]? = some c ∧
      dist la lo c.lat c.long = m ∧
      nearest_loc dist la lo df =
        some (c.address, c.lat, c.long,
          if m = 0 then none else some (decide (m ≤ 1))) ∧
      (∀ (j : ℕ) (cj : Candidate), df[j]? = some cj →
        m ≤ dist la lo cj.lat cj.long) ∧
      (∀ (j : ℕ) (cj : Candidate), j < i → df[j]? = some cj →
        m < dist la lo cj.lat cj.long) := by
  cases df with
  | nil => exact absurd rfl hne
  | cons c0 cs =>
    obtain ⟨p1, p2, hpeq⟩ : ∃ p1 p2, argminD (dist la lo c0.lat c0.long)
        (cs.map (fun loc => dist la lo loc.lat loc.long)) = (p1, p2) := ⟨_, _, rfl⟩
    have hget : (dist la lo c0.lat c0.long ::
        cs.map (fun loc => dist la lo loc.lat loc.long))[p1]? = some p2 := by
      have h := argminD_get (dist la lo c0.lat c0.long)
        (cs.map (fun loc => dist la lo loc.lat loc.long))
      rwa [hpeq] at h
    have hget2 : ((c0 :: cs)[p1]?).map (fun loc => dist la lo loc.lat loc.long) =
        some p2 := by
      rw [← List.getElem?_map]
      simpa using hget
    obtain ⟨c, hc, hfc⟩ := Option.map_eq_some'.mp hget2
    refine ⟨p1, c, p2, hc, hfc, ?_, ?_, ?_⟩
    · show nearest_loc dist la lo (c0 :: cs) = _
      unfold nearest_loc
      simp only [hpeq, hc]
    · intro j cj hj
      have hjm : (dist la lo c0.lat c0.long ::
          cs.map (fun loc => dist la lo loc.lat loc.long))[j]? =
          some (dist la lo cj.lat cj.long) := by
        have : ((c0 :: cs).map (fun loc => dist la lo loc.lat loc.long))[j]? =
            some (dist la lo cj.lat cj.long) := by
          rw [List.getElem?_map, hj]
          rfl
        simpa using this
      have h := argminD_le (dist la lo c0.lat c0.long)
        (cs.map (fun loc => dist la lo loc.lat loc.long)) j
        (dist la lo cj.lat cj.long) hjm
      rwa [hpeq] at h
    · intro j cj hlt hj
      have hjm : (dist la lo c0.lat c0.long ::
          cs.map (fun loc => dist la lo loc.lat loc.long))[j]? =
          some (dist la lo cj.lat cj.long) := by
        have : ((c0 :: cs).map (fun loc => dist la lo loc.lat loc.long))[j]? =
            some (dist la lo cj.lat cj.long) := by
          rw [List.getElem?_map, hj]
          rfl
        simpa using this
      have h := argminD_first (dist la lo c0.lat c0.long)
        (cs.map (fun loc => dist la lo loc.lat loc.long)) j
        (dist la lo cj.lat cj.long) (by rwa [hpeq]) hjm
      rwa [hpeq] at h

/-- A concrete distance function used only to instantiate theorems with
hypotheses at concrete inputs: distance is the candidate's latitude. -/
def distLat : ℚ → ℚ → ℚ → ℚ → ℚ := fun _ _ x _ => x

/-- A concrete distance function constantly equal to 2 (nonnegative). -/
def distTwo : ℚ → ℚ → ℚ → ℚ → ℚ := fun _ _ _ _ => 2

/-- Claim C1: for every non-empty candidate table and query point,
nearest_loc returns a candidate present in the table, no candidate in the
table has strictly smaller computed distance to the query point, and the
returned candidate is the first one attaining the minimum in the table's
iteration order. -/
theorem nearest_loc_argmin (dist : ℚ → ℚ → ℚ → ℚ → ℚ) (la lo : ℚ)
    (df : List Candidate) (hne : df ≠ []) :
    ∃ (i : ℕ) (c : Candidate) (w : Option Bool), df[i]? = some c ∧
      nearest_loc dist la lo df = some (c.address, c.lat, c.long, w) ∧
      (∀ (j : ℕ) (cj : Candidate), df[j]? = some cj →
        dist la lo c.lat c.long ≤ dist la lo cj.lat cj.long) ∧
      (∀ (j : ℕ) (cj : Candidate), j < i → df[j]? = some cj →
        dist la lo c.lat c.long < dist la lo cj.lat cj.long) := by
  obtain ⟨i, c, m, hc, hm, heq, hle, hfirst⟩ := nearest_loc_core dist la lo df hne
  refine ⟨i, c, _, hc, heq, ?_, ?_⟩
  · rw [hm]
    exact hle
  · rw [hm]
    exact hfirst

/-- Witness for C1 at a concrete input: two candidates at latitudes 2 and 1
with distance function distLat; the second candidate is nearer. -/
theorem nearest_loc_argmin_witness :
    ∃ (i : ℕ) (c : Candidate) (w : Option Bool),
      ([⟨"A", 2, 0⟩, ⟨"B", 1, 0⟩] : List Candidate)[i]? = some c ∧
      nearest_loc distLat 0 0 [⟨"A", 2, 0⟩, ⟨"B", 1, 0⟩] =
        some (c.address, c.lat, c.long, w) ∧
      (∀ (j : ℕ) (cj : Candidate),
        ([⟨"A", 2, 0⟩, ⟨"B", 1, 0⟩] : List Candidate)[j]? = some cj →
        distLat 0 0 c.lat c.long ≤ distLat 0 0 cj.lat cj.long) ∧
      (∀ (j : ℕ) (cj : Candidate), j < i →
        ([⟨"A", 2, 0⟩, ⟨"B", 1, 0⟩] : List Candidate)[j]? = some cj →
        distLat 0 0 c.lat c.long < distLat 0 0 cj.lat cj.long) :=
  nearest_loc_argmin distLat 0 0 [⟨"A", 2, 0⟩, ⟨"B", 1, 0⟩] (by decide)

/-- Claim C2: for every non-empty candidate table and query point, with the
distance function nonnegative (as the haversine distance is), the
within-threshold value returned by nearest_loc is none iff the minimum
computed distance is exactly 0, some true iff that distance is strictly
positive and at most 1 (kilometre), and some false iff it exceeds 1. -/
theorem nearest_loc_threshold (dist : ℚ → ℚ → ℚ → ℚ → ℚ) (la lo : ℚ)
    (df : List Candidate) (hne : df ≠ [])
    (hnn : ∀ x y : ℚ, 0 ≤ dist la lo x y) :
    ∃ (a : String) (x y : ℚ) (w : Option Bool) (m : ℚ),
      nearest_loc dist la lo df = some (a, x, y, w) ∧
      (∃ (j : ℕ) (cj : Candidate), df[j]? = some cj ∧
        dist la lo cj.lat cj.long = m) ∧
      (∀ (j : ℕ) (cj : Candidate), df[j]? = some cj →
        m ≤ dist la lo cj.lat cj.long) ∧
      (w = none ↔ m = 0) ∧ (w = some true ↔ 0 < m ∧ m ≤ 1) ∧
      (w = some false ↔ 1 < m) := by
  obtain ⟨i, c, m, hc, hm, heq, hle, _⟩ := nearest_loc_core dist la lo df hne
  have hmnn : 0 ≤ m := hm ▸ hnn c.lat c.long
  refine ⟨c.address, c.lat, c.long, _, m, heq, ⟨i, c, hc, hm⟩, hle, ?_, ?_, ?_⟩
  · by_cases h0 : m = 0 <;> simp [h0]
  · by_cases h0 : m = 0
    · simp [h0]
    · have hpos : 0 < m := lt_of_le_of_ne hmnn (Ne.symm h0)
      by_cases h1 : m ≤ 1 <;> simp [h0, h1, hpos]
  · by_cases h0 : m = 0
    · subst h0
      simp
    · by_cases h1 : m ≤ 1
      · simp [h0, h1, not_lt_of_le h1]
      · simp [h0, h1, lt_of_not_le h1]

/-- Witness for C2 at a concrete input: one candidate, constant distance 2,
so the threshold flag is some false and the minimum distance is 2. -/
theorem nearest_loc_threshold_witness :
    ∃ (a : String) (x y : ℚ) (w : Option Bool) (m : ℚ),
      nearest_loc distTwo 0 0 [⟨"A", 5, 6⟩] = some (a, x, y, w) ∧
      (∃ (j : ℕ) (cj : Candidate),
        ([⟨"A", 5, 6⟩] : List Candidate)[j]? = some cj ∧
        distTwo 0 0 cj.lat cj.long = m) ∧
      (∀ (j : ℕ) (cj : Candidate),
        ([⟨"A", 5, 6⟩] : List Candidate)[j]? = some cj →
        m ≤ distTwo 0 0 cj.lat cj.long) ∧
      (w = none ↔ m = 0) ∧ (w = some true ↔ 0 < m ∧ m ≤ 1) ∧
      (w = some false ↔ 1 < m) :=
  nearest_loc_threshold distTwo 0 0 [⟨"A", 5, 6⟩] (by decide)
    (fun _ _ => by norm_num [distTwo])

/-- Claim C7: nearest_loc called with an empty candidate table fails (the
np.argmin call on the empty distance array raises ValueError) rather than
returning a result, embedded as the none outcome. -/
theorem nearest_loc_empty (dist : ℚ → ℚ → ℚ → ℚ → ℚ) (la lo : ℚ) :
    nearest_loc dist la lo [] = none := rfl

/-- A JSON value as seen by response.json(): malformed stands for a body on
which .json() raises, the other constructors are parsed JSON values. -/
inductive JsonVal where
  | malformed : JsonVal
  | null : JsonVal
  | num (q : ℚ) : JsonVal
  | str (s : String) : JsonVal
  | arr (xs : List JsonVal) : JsonVal
  | obj (fields : List (String × JsonVal)) : JsonVal

/-- Python dict .get(key): the value of the first binding of key, or None. -/
def dictGet (fields : List (String × JsonVal)) (key : String) : Option JsonVal :=
  match fields with
  | [] => none
  | (k, v) :: rest => if k = key then some v else dictGet rest key

/-- The outcome of the requests.get call inside get_distance: either a
transport-level exception or an HTTP response with a status code and a body. -/
inductive HttpResult where
  | transportError : HttpResult
  | response (status : ℕ) (body : JsonVal) : HttpResult

/-- Embedding of get_distance (feature_engineering.py lines 54-82).  The
coordinates and token parametrise the request; the network outcome of
requests.get is passed explicitly as resp.  raise_for_status raises for
status codes 400-599; every raised exception is caught by the blanket
except clause and turned into None.  response.json().get("route_summary",
{}).get("total_distance") becomes the nested dictGet lookups, where .get
on a non-dict value raises AttributeError (caught, None). -/
def get_distance (hdb_lat hdb_long loc_lat loc_long : ℚ) (api_token : String)
    (resp : HttpResult) : Option JsonVal :=
  match resp with
  | .transportError => none
  | .response status body =>
    if 400 ≤ status ∧ status < 600 then none
    else
      match body with
      | .obj fields =>
        match dictGet fields "route_summary" with
        | some (.obj route_summary) => dictGet route_summary "total_distance"
        | some _ => none
        | none => none
      | _ => none

/-- Claim C6: for every pair of points and every token, get_distance returns
None (it is a total function, never propagating an error) on a transport
error, on a 4xx/5xx HTTP status, on a malformed JSON body, on a body that is
not an object or lacks the route_summary field, and on a route_summary
object lacking the total_distance field. -/
theorem get_distance_soft_failure (hdb_lat hdb_long loc_lat loc_long : ℚ)
    (api_token : String) :
    (get_distance hdb_lat hdb_long loc_lat loc_long api_token
      .transportError = none) ∧
    (∀ (status : ℕ) (body : JsonVal), 400 ≤ status → status < 600 →
      get_distance hdb_lat hdb_long loc_lat loc_long api_token
        (.response status body) = none) ∧
    (∀ status : ℕ, get_distance hdb_lat hdb_long loc_lat loc_long api_token
      (.response status .malformed) = none) ∧
    (∀ (status : ℕ) (fields : List (String × JsonVal)),
      dictGet fields "route_summary" = none →
      get_distance hdb_lat hdb_long loc_lat loc_long api_token
        (.response status (.obj fields)) = none) ∧
    (∀ (status : ℕ) (fields route_summary : List (String × JsonVal)),
      dictGet fields "route_summary" = some (.obj route_summary) →
      dictGet route_summary "total_distance" = none →
      get_distance hdb_lat hdb_long loc_lat loc_long api_token
        (.response status (.obj fields)) = none) := by
  refine ⟨rfl, ?_, ?_, ?_, ?_⟩
  · intro status body h4 h6
    simp [get_distance, h4, h6]
  · intro status
    by_cases h : 400 ≤ status ∧ status < 600 <;> simp [get_distance, h]
  · intro status fields hrs
    by_cases h : 400 ≤ status ∧ status < 600 <;> simp [get_distance, h, hrs]
  · intro status fields route_summary hrs htd
    by_cases h : 400 ≤ status ∧ status < 600 <;> simp [get_distance, h, hrs, htd]

/-- Witness for C6 at concrete inputs: a transport error, an HTTP 404, a
malformed body, an empty object body, and a route_summary object without a
total_distance field all yield None. -/
theorem get_distance_soft_failure_witness :
    (get_distance 0 0 1 1 "token" .transportError = none) ∧
    (get_distance 0 0 1 1 "token" (.response 404 (.obj [])) = none) ∧
    (get_distance 0 0 1 1 "token" (.response 200 .malformed) = none) ∧
    (get_distance 0 0 1 1 "token" (.response 200 (.obj [])) = none) ∧
    (get_distance 0 0 1 1 "token"
      (.response 200 (.obj [("route_summary", .obj [])])) = none) :=
  ⟨(get_distance_soft_failure 0 0 1 1 "token").1,
   (get_distance_soft_failure 0 0 1 1 "token").2.1 404 (.obj [])
     (by decide) (by decide),
   (get_distance_soft_failure 0 0 1 1 "token").2.2.1 200,
   (get_distance_soft_failure 0 0 1 1 "token").2.2.2.1 200 [] rfl,
   (get_distance_soft_failure 0 0 1 1 "token").2.2.2.2 200
     [("route_summary", .obj [])] [] rfl rfl⟩

/-- A row of the HDB subject table: coordinates plus the opaque passthrough
columns of the row, bundled as rest. -/
structure Row (α : Type) where
  lat : ℚ
  long : ℚ
  rest : α
deriving DecidableEq, Repr

/-- One routing request issued to the OneMap routing endpoint, recorded as
the start and end coordinates passed to get_distance. -/
structure RouteCall where
  start_lat : ℚ
  start_long : ℚ
  end_lat : ℚ
  end_long : ℚ
deriving DecidableEq, Repr

/-- The six engineered columns appended by engineer_distance_features
(feature_engineering.py lines 120-125): Nearest_MRT, Distance_MRT,
Nearest_Mall, Distance_Mall, Nearest_Pri_Sch, Within_1km_of_Pri. -/
structure Extras where
  nearest_mrt : String
  distance_mrt : Option ℚ
  nearest_mall : String
  distance_mall : Option ℚ
  nearest_pri_sch : String
  within_1km_of_pri : Option Bool
deriving DecidableEq, Repr

/-- An enriched output row: the original subject row plus the six new
columns. -/
structure ERow (α : Type) where
  base : Row α
  extras : Extras
deriving DecidableEq, Repr

/-- The loop body of engineer_distance_features (feature_engineering.py
lines 105-117) for one subject: nearest MRT then its get_distance call,
nearest mall then its get_distance call, nearest school with its within-1km
flag and no distance call.  route is the oracle giving the value returned
by get_distance for given start and end coordinates; the returned list
records the routing requests issued, in order.  A failing nearest lookup
(empty candidate table) aborts with none. -/
def processSubject (dist : ℚ → ℚ → ℚ → ℚ → ℚ)
    (route : ℚ → ℚ → ℚ → ℚ → Option ℚ)
    (mrts malls schools : List Candidate) (hdb_lat hdb_long : ℚ) :
    Option (Extras × List RouteCall) :=
  match nearest_loc dist hdb_lat hdb_long mrts with
  | none => none
  | some (mrt, mrt_lat, mrt_long, _) =>
    let mrt_dist := route hdb_lat hdb_long mrt_lat mrt_long
    match nearest_loc dist hdb_lat hdb_long malls with
    | none => none
    | some (mall, mall_lat, mall_long, _) =>
      let mall_dist := route hdb_lat hdb_long mall_lat mall_long
      match nearest_loc dist hdb_lat hdb_long schools with
      | none => none
      | some (school, _, _, school_1km) =>
        some ({ nearest_mrt := mrt, distance_mrt := mrt_dist,
                nearest_mall := mall, distance_mall := mall_dist,
                nearest_pri_sch := school, within_1km_of_pri := school_1km },
              [⟨hdb_lat, hdb_long, mrt_lat, mrt_long⟩,
               ⟨hdb_lat, hdb_long, mall_lat, mall_long⟩])

/-- Embedding of engineer_distance_features (feature_engineering.py lines
86-127): runs the loop body over every subject row in order and appends the
six engineered columns to each row, also collecting the routing requests
issued.  The Python code accumulates six per-column lists and assigns them
as new columns of the same DataFrame; since the lists are built in lockstep
with the row iteration, this equals attaching each subject's Extras to its
row. -/
def engineer_distance_features (dist : ℚ → ℚ → ℚ → ℚ → ℚ)
    (route : ℚ → ℚ → ℚ → ℚ → Option ℚ) (hdbs : List (Row α))
    (mrts malls schools : List Candidate) :
    Option (List (ERow α) × List RouteCall) :=
  match hdbs with
  | [] => some ([], [])
  | r :: rs =>
    match processSubject dist route mrts malls schools r.lat r.long with
    | none => none
    | some (ex, calls) =>
      match engineer_distance_features dist route rs mrts malls schools with
      | none => none
      | some (out, trace) => some (⟨r, ex⟩ :: out, calls ++ trace)

/-- On nonempty candidate tables the loop body always succeeds and issues
exactly two routing requests. -/
theorem processSubject_some (dist : ℚ → ℚ → ℚ → ℚ → ℚ)
    (route : ℚ → ℚ → ℚ → ℚ → Option ℚ) (mrts malls schools : List Candidate)
    (h1 : mrts ≠ []) (h2 : malls ≠ []) (h3 : schools ≠ []) (la lo : ℚ) :
    ∃ (ex : Extras) (calls : List RouteCall),
      processSubject dist route mrts malls schools la lo = some (ex, calls) ∧
      calls.length = 2 := by
  obtain ⟨_, c1, m1, _, _, he1, _, _⟩ := nearest_loc_core dist la lo mrts h1
  obtain ⟨_, c2, m2, _, _, he2, _, _⟩ := nearest_loc_core dist la lo malls h2
  obtain ⟨_, c3, m3, _, _, he3, _, _⟩ := nearest_loc_core dist la lo schools h3
  refine ⟨⟨c1.address, route la lo c1.lat c1.long, c2.address,
    route la lo c2.lat c2.long, c3.address,
    if m3 = 0 then none else some (decide (m3 ≤ 1))⟩,
    [⟨la, lo, c1.lat, c1.long⟩, ⟨la, lo, c2.lat, c2.long⟩], ?_, rfl⟩
  unfold processSubject
  rw [he1, he2, he3]

/-- Shared characterisation of engineer_distance_features on nonempty
candidate tables: it succeeds, produces one output row per subject row in
the same order with the subject's original columns unchanged, and issues
exactly two routing requests per subject. -/
theorem engineer_spec (dist : ℚ → ℚ → ℚ → ℚ → ℚ)
    (route : ℚ → ℚ → ℚ → ℚ → Option ℚ) (mrts malls schools : List Candidate)
    (h1 : mrts ≠ []) (h2 : malls ≠ []) (h3 : schools ≠ [])
    (hdbs : List (Row α)) :
    ∃ (out : List (ERow α)) (trace : List RouteCall),
      engineer_distance_features dist route hdbs mrts malls schools =
        some (out, trace) ∧
      out.length = hdbs.length ∧
      trace.length = 2 * hdbs.length ∧
      (∀ i : ℕ, (out[i]?).map ERow.base = hdbs[i]?) := by
  induction hdbs with
  | nil => exact ⟨[], [], rfl, rfl, rfl, fun i => rfl⟩
  | cons r rs ih =>
    obtain ⟨ex, calls, hps, hcl⟩ :=
      processSubject_some dist route mrts malls schools h1 h2 h3 r.lat r.long
    obtain ⟨out, trace, heq, hlen, htr, hbase⟩ := ih
    refine ⟨⟨r, ex⟩ :: out, calls ++ trace, ?_, ?_, ?_, ?_⟩
    · unfold engineer_distance_features
      rw [hps, heq]
    · simp [hlen]
    · simp [hcl, htr]
      ring
    · intro i
      match i with
      | 0 => simp
      | i + 1 => simpa using hbase i

/-- A routing oracle on which every request fails (get_distance returns
None), used to instantiate theorems at concrete inputs. -/
def routeNone : ℚ → ℚ → ℚ → ℚ → Option ℚ := fun _ _ _ _ => none

/-- Claim C8: for every subject, a routing request is issued exactly for the
nearest MRT and the nearest mall (in that order) and for nothing else; the
school within-1km flag is taken directly from the nearest lookup with no
routing request; and the enriched record is emitted whatever the routing
oracle returns, so a None distance does not abort the subject — it lands as
None in the corresponding field. -/
theorem processSubject_external_calls (dist : ℚ → ℚ → ℚ → ℚ → ℚ)
    (route : ℚ → ℚ → ℚ → ℚ → Option ℚ) (mrts malls schools : List Candidate)
    (h1 : mrts ≠ []) (h2 : malls ≠ []) (h3 : schools ≠ []) (la lo : ℚ) :
    ∃ (mrt : String) (mrt_lat mrt_long : ℚ) (w1 : Option Bool)
      (mall : String) (mall_lat mall_long : ℚ) (w2 : Option Bool)
      (school : String) (s_lat s_long : ℚ) (school_1km : Option Bool),
      nearest_loc dist la lo mrts = some (mrt, mrt_lat, mrt_long, w1) ∧
      nearest_loc dist la lo malls = some (mall, mall_lat, mall_long, w2) ∧
      nearest_loc dist la lo schools = some (school, s_lat, s_long, school_1km) ∧
      processSubject dist route mrts malls schools la lo =
        some ({ nearest_mrt := mrt,
                distance_mrt := route la lo mrt_lat mrt_long,
                nearest_mall := mall,
                distance_mall := route la lo mall_lat mall_long,
                nearest_pri_sch := school,
                within_1km_of_pri := school_1km },
              [⟨la, lo, mrt_lat, mrt_long⟩, ⟨la, lo, mall_lat, mall_long⟩]) := by
  obtain ⟨_, c1, m1, _, _, he1, _, _⟩ := nearest_loc_core dist la lo mrts h1
  obtain ⟨_, c2, m2, _, _, he2, _, _⟩ := nearest_loc_core dist la lo malls h2
  obtain ⟨_, c3, m3, _, _, he3, _, _⟩ := nearest_loc_core dist la lo schools h3
  refine ⟨c1.address, c1.lat, c1.long, _, c2.address, c2.lat, c2.long, _,
    c3.address, c3.lat, c3.long, _, he1, he2, he3, ?_⟩
  unfold processSubject
  rw [he1, he2, he3]

/-- Witness for C8 at a concrete input: singleton candidate tables and the
always-failing routing oracle; the record is still emitted, with None in
both distance fields. -/
theorem processSubject_external_calls_witness :
    ∃ (mrt : String) (mrt_lat mrt_long : ℚ) (w1 : Option Bool)
      (mall : String) (mall_lat mall_long : ℚ) (w2 : Option Bool)
      (school : String) (s_lat s_long : ℚ) (school_1km : Option Bool),
      nearest_loc distLat 0 0 [⟨"M", 1, 1⟩] = some (mrt, mrt_lat, mrt_long, w1) ∧
      nearest_loc distLat 0 0 [⟨"L", 2, 2⟩] = some (mall, mall_lat, mall_long, w2) ∧
      nearest_loc distLat 0 0 [⟨"S", 3, 3⟩] =
        some (school, s_lat, s_long, school_1km) ∧
      processSubject distLat routeNone [⟨"M", 1, 1⟩] [⟨"L", 2, 2⟩] [⟨"S", 3, 3⟩]
          0 0 =
        some ({ nearest_mrt := mrt,
                distance_mrt := routeNone 0 0 mrt_lat mrt_long,
                nearest_mall := mall,
                distance_mall := routeNone 0 0 mall_lat mall_long,
                nearest_pri_sch := school,
                within_1km_of_pri := school_1km },
              [⟨0, 0, mrt_lat, mrt_long⟩, ⟨0, 0, mall_lat, mall_long⟩]) :=
  processSubject_external_calls distLat routeNone
    [⟨"M", 1, 1⟩] [⟨"L", 2, 2⟩] [⟨"S", 3, 3⟩]
    (by decide) (by decide) (by decide) 0 0

/-- Claim C10: when every per-subject lookup succeeds (nonempty candidate
tables), engineer_distance_features returns a frame with the same rows in
the same order, every pre-existing subject column unchanged (each output
row's base is the input row), and exactly the six new columns of Extras
attached; the in-place column assignment of the Python code is embedded as
the returned state of the frame. -/
theorem engineer_frame_effect (dist : ℚ → ℚ → ℚ → ℚ → ℚ)
    (route : ℚ → ℚ → ℚ → ℚ → Option ℚ) (hdbs : List (Row α))
    (mrts malls schools : List Candidate)
    (h1 : mrts ≠ []) (h2 : malls ≠ []) (h3 : schools ≠ []) :
    ∃ (out : List (ERow α)) (trace : List RouteCall),
      engineer_distance_features dist route hdbs mrts malls schools =
        some (out, trace) ∧
      out.length = hdbs.length ∧
      (∀ i : ℕ, (out[i]?).map ERow.base = hdbs[i]?) := by
  obtain ⟨out, trace, heq, hlen, _, hbase⟩ :=
    engineer_spec dist route mrts malls schools h1 h2 h3 hdbs
  exact ⟨out, trace, heq, hlen, hbase⟩

/-- Witness for C10 at a concrete input: a two-row subject frame with
passthrough payloads 7 and 8 is enriched without loss or reordering. -/
theorem engineer_frame_effect_witness :
    ∃ (out : List (ERow ℕ)) (trace : List RouteCall),
      engineer_distance_features distLat routeNone
        [⟨0, 0, 7⟩, ⟨5, 5, 8⟩] [⟨"M", 1, 1⟩] [⟨"L", 2, 2⟩] [⟨"S", 3, 3⟩] =
        some (out, trace) ∧
      out.length = ([⟨0, 0, 7⟩, ⟨5, 5, 8⟩] : List (Row ℕ)).length ∧
      (∀ i : ℕ, (out[i]?).map ERow.base =
        ([⟨0, 0, 7⟩, ⟨5, 5, 8⟩] : List (Row ℕ))[i]?) :=
  engineer_frame_effect distLat routeNone [⟨0, 0, 7⟩, ⟨5, 5, 8⟩]
    [⟨"M", 1, 1⟩] [⟨"L", 2, 2⟩] [⟨"S", 3, 3⟩] (by decide) (by decide) (by decide)

/-- Claim C5 (amended): during one batch followed by its cooldown the
batcher issues exactly two routing requests per subject, hence at most
2 * batchSize requests per cooldown window — 200, not 100, under the
reference parameters; the claimed bound of batchSize requests per window is
refuted by rate_limit_counterexample. -/
theorem engineer_rate_limit (dist : ℚ → ℚ → ℚ → ℚ → ℚ)
    (route : ℚ → ℚ → ℚ → ℚ → Option ℚ) (batch : List (Row α))
    (mrts malls schools : List Candidate) (B : ℕ)
    (h1 : mrts ≠ []) (h2 : malls ≠ []) (h3 : schools ≠ [])
    (hlen : batch.length ≤ B) :
    ∃ (out : List (ERow α)) (trace : List RouteCall),
      engineer_distance_features dist route batch mrts malls schools =
        some (out, trace) ∧
      trace.length = 2 * batch.length ∧ trace.length ≤ 2 * B := by
  obtain ⟨out, trace, heq, _, htr, _⟩ :=
    engineer_spec dist route mrts malls schools h1 h2 h3 batch
  exact ⟨out, trace, heq, htr, by omega⟩

/-- Witness for the amended C5 at a concrete input: a single-subject batch
with batchSize 100 issues 2 requests, at most 200. -/
theorem engineer_rate_limit_witness :
    ∃ (out : List (ERow ℕ)) (trace : List RouteCall),
      engineer_distance_features distLat routeNone
        [⟨0, 0, 7⟩] [⟨"M", 1, 1⟩] [⟨"L", 2, 2⟩] [⟨"S", 3, 3⟩] =
        some (out, trace) ∧
      trace.length = 2 * ([⟨0, 0, 7⟩] : List (Row ℕ)).length ∧
      trace.length ≤ 2 * 100 :=
  engineer_rate_limit distLat routeNone [⟨0, 0, 7⟩]
    [⟨"M", 1, 1⟩] [⟨"L", 2, 2⟩] [⟨"S", 3, 3⟩] 100
    (by decide) (by decide) (by decide) (by decide)

/-- Counterexample to C5 as stated: a full batch of batchSize = 100
subjects issues 200 routing requests during its batch-plus-cooldown window,
which is not at most 100. -/
theorem rate_limit_counterexample :
    (engineer_distance_features distLat routeNone
        (List.replicate 100 (⟨0, 0, 0⟩ : Row ℕ))
        [⟨"M", 1, 1⟩] [⟨"L", 2, 2⟩] [⟨"S", 3, 3⟩]).map
      (fun p => p.2.length) = some 200 ∧ ¬ (200 ≤ 100) := by
  obtain ⟨out, trace, heq, _, htr, _⟩ :=
    engineer_spec distLat routeNone [⟨"M", 1, 1⟩] [⟨"L", 2, 2⟩] [⟨"S", 3, 3⟩]
      (by decide) (by decide) (by decide)
      (List.replicate 100 (⟨0, 0, 0⟩ : Row ℕ))
  rw [heq]
  simp only [List.length_replicate] at htr
  refine ⟨?_, by omega⟩
  simp [htr]

/-- Embedding of the batch partitioning of the main block
(feature_engineering.py lines 143-148): BATCHES = (N + B - 1) // B, and
batch i is hdbs.iloc[i*B : min(i*B + B, N)], i.e. the slice of the subject
list from i*B of length min(i*B + B, N) - i*B. -/
def batches (l : List α) (B : ℕ) : List (List α) :=
  (List.range ((l.length + B - 1) / B)).map
    (fun i => (l.drop (i * B)).take (min (i * B + B) l.length - i * B))

theorem ceil_div_pos_eq (B n : ℕ) (hB : 1 ≤ B) (hn : 1 ≤ n) :
    (n + B - 1) / B = (n - 1) / B + 1 := by
  have h1 : n + B - 1 = (n - 1) + B := by omega
  rw [h1, Nat.add_div_right _ hB]

theorem ceil_div_zero (B : ℕ) (hB : 1 ≤ B) : (0 + B - 1) / B = 0 :=
  Nat.div_eq_of_lt (by omega)

theorem ceil_div_sub (B n : ℕ) (hB : 1 ≤ B) (hn : 1 ≤ n) :
    ((n - B) + B - 1) / B + 1 = (n + B - 1) / B := by
  rcases le_or_lt n B with h | h
  · have h0 : n - B = 0 := by omega
    rw [h0, ceil_div_zero B hB, ceil_div_pos_eq B n hB hn]
    have hz : (n - 1) / B = 0 := Nat.div_eq_of_lt (by omega)
    omega
  · rw [ceil_div_pos_eq B n hB hn, ceil_div_pos_eq B (n - B) hB (by omega)]
    have h2 : n - 1 = (n - B - 1) + B := by omega
    rw [h2, Nat.add_div_right _ hB]

/-- The pandas slice bound min(i*B + B, N) makes each batch equal to a
plain take of B elements after the drop. -/
theorem batch_take_eq (l : List α) (i B : ℕ) :
    (l.drop (i * B)).take (min (i * B + B) l.length - i * B) =
      (l.drop (i * B)).take B := by
  rcases le_or_lt l.length (i * B) with h | h
  · rw [List.drop_eq_nil_of_le h]
    simp
  · have hlen : (l.drop (i * B)).length = l.length - i * B :=
      List.length_drop _ _
    refine List.take_eq_take.mpr ?_
    rw [hlen]
    omega

theorem batches_eq (l : List α) (B : ℕ) :
    batches l B = (List.range ((l.length + B - 1) / B)).map
      (fun i => (l.drop (i * B)).take B) := by
  unfold batches
  exact List.map_congr_left (fun i _ => batch_take_eq l i B)

theorem batches_join (B : ℕ) (hB : 1 ≤ B) (l : List α) :
    (batches l B).flatten = l := by
  rw [batches_eq]
  suffices h : ∀ (n : ℕ) (l : List α), (l.length + B - 1) / B = n →
      ((List.range n).map (fun i => (l.drop (i * B)).take B)).flatten = l by
    exact h _ l rfl
  intro n
  induction n with
  | zero =>
    intro l hl
    have hlen : l.length = 0 := by
      by_contra h0
      rw [ceil_div_pos_eq B l.length hB (by omega)] at hl
      exact absurd hl (Nat.succ_ne_zero _)
    simp [List.eq_nil_of_length_eq_zero hlen]
  | succ n ih =>
    intro l hl
    have hlen : 1 ≤ l.length := by
      by_contra h0
      have hz : l.length = 0 := by omega
      rw [hz, ceil_div_zero B hB] at hl
      omega
    have htail : ∀ i : ℕ, (l.drop (Nat.succ i * B)).take B =
        ((l.drop B).drop (i * B)).take B := by
      intro i
      rw [List.drop_drop]
      have hmul : B + i * B = Nat.succ i * B := by
        rw [Nat.succ_mul]
        exact Nat.add_comm B (i * B)
      rw [hmul]
    rw [List.range_succ_eq_map, List.map_cons, List.flatten_cons,
      List.map_map]
    have hmap : (List.range n).map
        ((fun i => (l.drop (i * B)).take B) ∘ Nat.succ) =
        (List.range n).map (fun i => ((l.drop B).drop (i * B)).take B) :=
      List.map_congr_left (fun i _ => htail i)
    rw [hmap, ih (l.drop B) ?hdiv]
    · simp
    case hdiv =>
      have hd : (l.drop B).length = l.length - B := List.length_drop _ _
      rw [hd]
      have h2 := ceil_div_sub B l.length hB hlen
      rw [hl] at h2
      exact Nat.succ_injective h2

theorem batches_length (l : List α) (B : ℕ) :
    (batches l B).length = (l.length + B - 1) / B := by
  simp [batches]

theorem batches_size_le (l : List α) (B : ℕ) (i : ℕ) (b : List α)
    (hb : (batches l B)[i]? = some b) : b.length ≤ B := by
  rw [batches_eq, List.getElem?_map] at hb
  obtain ⟨j, hj, hjb⟩ := Option.map_eq_some'.mp hb
  rw [← hjb, List.length_take]
  exact min_le_left _ _

theorem batches_size_full (l : List α) (B : ℕ) (hB : 1 ≤ B) (i : ℕ)
    (b : List α) (hi : i + 1 < (batches l B).length)
    (hb : (batches l B)[i]? = some b) : b.length = B := by
  rw [batches_length] at hi
  have hlen1 : 1 ≤ l.length := by
    by_contra h0
    have hz : l.length = 0 := by omega
    rw [hz, ceil_div_zero B hB] at hi
    omega
  rw [ceil_div_pos_eq B l.length hB hlen1] at hi
  generalize hq : (l.length - 1) / B = q at hi
  have hile : i + 1 ≤ q := by omega
  have hle : (i + 1) * B ≤ l.length - 1 :=
    (Nat.le_div_iff_mul_le (by omega)).mp (hq ▸ hile)
  rw [batches_eq, List.getElem?_map] at hb
  obtain ⟨j, hj, hjb⟩ := Option.map_eq_some'.mp hb
  have hilt : i < (l.length + B - 1) / B := by
    rw [ceil_div_pos_eq B l.length hB hlen1, hq]
    omega
  have hji : j = i := by
    simp [List.getElem?_range, hilt] at hj
    omega
  subst hji
  rw [← hjb, List.length_take, List.length_drop]
  rw [Nat.add_mul, one_mul] at hle
  generalize j * B = x at hle ⊢
  omega

theorem batches_count_ceil (l : List α) (B : ℕ) (hB : 1 ≤ B) :
    l.length ≤ (batches l B).length * B ∧
    (batches l B).length * B < l.length + B := by
  rw [batches_length]
  have hdm := Nat.div_add_mod (l.length + B - 1) B
  have hmod : (l.length + B - 1) % B < B := Nat.mod_lt _ (by omega)
  generalize hq : (l.length + B - 1) / B = q at hdm ⊢
  generalize hr : (l.length + B - 1) % B = r at hdm hmod
  have hqB : q * B = B * q := Nat.mul_comm q B
  rw [hqB]
  generalize B * q = x at hdm ⊢
  omega

/-- Claim C3: for every batch size B at least 1 and every subject list, the
main block's partitioning yields exactly ceil(N/B) contiguous batches in
input order (the flatten equation gives no gaps, no overlaps, order
preserved; the two product bounds characterise the count as the ceiling of
N/B), each of size B except possibly the last, which is at most B. -/
theorem batches_partition (B : ℕ) (hB : 1 ≤ B) (l : List α) :
    (batches l B).flatten = l ∧
    (batches l B).length = (l.length + B - 1) / B ∧
    l.length ≤ (batches l B).length * B ∧
    (batches l B).length * B < l.length + B ∧
    (∀ (i : ℕ) (b : List α), (batches l B)[i]? = some b → b.length ≤ B) ∧
    (∀ (i : ℕ) (b : List α), i + 1 < (batches l B).length →
      (batches l B)[i]? = some b → b.length = B) :=
  ⟨batches_join B hB l, batches_length l B, (batches_count_ceil l B hB).1,
   (batches_count_ceil l B hB).2, fun i b hb => batches_size_le l B i b hb,
   fun i b hi hb => batches_size_full l B hB i b hi hb⟩

/-- Witness for C3 at a concrete input: five subjects in batches of two
yield three batches of sizes 2, 2, 1. -/
theorem batches_partition_witness :
    (batches [0, 1, 2, 3, 4] 2).flatten = [0, 1, 2, 3, 4] ∧
    (batches [0, 1, 2, 3, 4] 2).length =
      (([0, 1, 2, 3, 4] : List ℕ).length + 2 - 1) / 2 ∧
    ([0, 1, 2, 3, 4] : List ℕ).length ≤ (batches [0, 1, 2, 3, 4] 2).length * 2 ∧
    (batches [0, 1, 2, 3, 4] 2).length * 2 <
      ([0, 1, 2, 3, 4] : List ℕ).length + 2 ∧
    (∀ (i : ℕ) (b : List ℕ), (batches [0, 1, 2, 3, 4] 2)[i]? = some b →
      b.length ≤ 2) ∧
    (∀ (i : ℕ) (b : List ℕ), i + 1 < (batches [0, 1, 2, 3, 4] 2).length →
      (batches [0, 1, 2, 3, 4] 2)[i]? = some b → b.length = 2) :=
  batches_partition 2 (by decide) [0, 1, 2, 3, 4]

/-- A row of the output CSV (datasets/HDB_Features.csv): either the header
row or a data row. -/
inductive OutRow (β : Type) where
  | header : OutRow β
  | data (b : β) : OutRow β
deriving DecidableEq, Repr

/-- Embedding of DataFrame.to_csv(..., mode='a', header=h) on the output
store: appends an optional header row followed by one data row per frame
row. -/
def to_csv_append (store : List (OutRow β)) (rows : List β) (header : Bool) :
    List (OutRow β) :=
  store ++ (if header then [OutRow.header] else []) ++ rows.map OutRow.data

/-- Number of header rows in the output store. -/
def countHeaders (store : List (OutRow β)) : ℕ :=
  (store.filter (fun r => match r with | .header => true | .data _ => false)).length

/-- Number of data rows in the output store. -/
def countData (store : List (OutRow β)) : ℕ :=
  (store.filter (fun r => match r with | .header => false | .data _ => true)).length

/-- Embedding of the batch loop of the main block (feature_engineering.py
lines 143-152): partition the subjects into batches of BATCH_SIZE, engineer
each batch, and append it to the output store with header=False on every
iteration, the first included.  The store starts empty (a fresh run); the
time.sleep(30) cooldown has no effect on the store. -/
def main_loop (dist : ℚ → ℚ → ℚ → ℚ → ℚ)
    (route : ℚ → ℚ → ℚ → ℚ → Option ℚ) (hdbs : List (Row α))
    (mrts malls schools : List Candidate) (B : ℕ) :
    Option (List (OutRow (ERow α))) :=
  (batches hdbs B).foldlM
    (fun store batch =>
      (engineer_distance_features dist route batch mrts malls schools).map
        (fun p => to_csv_append store p.1 false))
    []

theorem countHeaders_append (s t : List (OutRow β)) :
    countHeaders (s ++ t) = countHeaders s + countHeaders t := by
  simp [countHeaders, List.filter_append]

theorem countData_append (s t : List (OutRow β)) :
    countData (s ++ t) = countData s + countData t := by
  simp [countData, List.filter_append]

theorem countHeaders_data (rows : List β) :
    countHeaders (rows.map OutRow.data) = 0 := by
  induction rows with
  | nil => rfl
  | cons r rs ih => simp [countHeaders, List.filter_cons] at ih ⊢

theorem countData_data (rows : List β) :
    countData (rows.map OutRow.data) = rows.length := by
  induction rows with
  | nil => rfl
  | cons r rs ih => simpa [countData, List.filter_cons] using ih

theorem to_csv_append_eq (store : List (OutRow β)) (rows : List β) :
    to_csv_append store rows false = store ++ rows.map OutRow.data := by
  simp [to_csv_append]

/-- Folding the headerless batch writes over any batch list: the final
store has the headers of the initial store (none are ever added) and one
data row per subject of every batch. -/
theorem write_fold_spec (dist : ℚ → ℚ → ℚ → ℚ → ℚ)
    (route : ℚ → ℚ → ℚ → ℚ → Option ℚ) (mrts malls schools : List Candidate)
    (h1 : mrts ≠ []) (h2 : malls ≠ []) (h3 : schools ≠ [])
    (bs : List (List (Row α))) (store0 : List (OutRow (ERow α))) :
    ∃ store : List (OutRow (ERow α)),
      bs.foldlM
        (fun store batch =>
          (engineer_distance_features dist route batch mrts malls schools).map
            (fun p => to_csv_append store p.1 false))
        store0 = some store ∧
      countHeaders store = countHeaders store0 ∧
      countData store = countData store0 + (bs.map List.length).sum := by
  induction bs generalizing store0 with
  | nil => exact ⟨store0, rfl, rfl, by simp⟩
  | cons b rest ih =>
    obtain ⟨out, trace, heq, hlen, _, _⟩ :=
      engineer_spec dist route mrts malls schools h1 h2 h3 b
    obtain ⟨store, hfold, hhead, hdata⟩ :=
      ih (to_csv_append store0 out false)
    refine ⟨store, ?_, ?_, ?_⟩
    · rw [List.foldlM_cons, heq]
      exact hfold
    · rw [hhead, to_csv_append_eq, countHeaders_append, countHeaders_data]
      omega
    · rw [hdata, to_csv_append_eq, countData_append, countData_data, hlen]
      simp
      omega

/-- The 250-subject input table of the end-to-end scenario, with the
passthrough payload enumerating the rows. -/
def subjects250 : List (Row ℕ) := (List.range 250).map (fun k => ⟨0, 0, k⟩)

set_option maxRecDepth 4000 in
/-- Claim C4, evaluated on the code at the failing input: on a fresh run
over 250 subjects with batch size 100, the loop writes the three batches of
sizes 100, 100, 50 in input order, but passes header=False on every
to_csv append, the first included, so the final output store holds 250 data
rows and zero header rows --- not the one header row the claim asserts. -/
theorem main_loop_no_header :
    ∃ store : List (OutRow (ERow ℕ)),
      main_loop distLat routeNone subjects250
        [⟨"M", 1, 1⟩] [⟨"L", 2, 2⟩] [⟨"S", 3, 3⟩] 100 = some store ∧
      countHeaders store = 0 ∧ countData store = 250 ∧
      (batches subjects250 100).map List.length = [100, 100, 50] := by
  obtain ⟨store, hfold, hhead, hdata⟩ :=
    write_fold_spec distLat routeNone [⟨"M", 1, 1⟩] [⟨"L", 2, 2⟩] [⟨"S", 3, 3⟩]
      (by decide) (by decide) (by decide) (batches subjects250 100) []
  refine ⟨store, hfold, ?_, ?_, ?_⟩
  · rw [hhead]
    rfl
  · rw [hdata]
    have hj : ((batches subjects250 100).map List.length).sum =
        (batches subjects250 100).flatten.length := (List.length_flatten _).symm
    rw [hj, batches_join 100 (by omega) subjects250]
    simp [subjects250, countData]
  · rfl

/-- Python str.split() with no separator, on a string given as its
character list: split on runs of spaces, discarding empty pieces (the
remaining_lease strings contain only ordinary spaces).  The accumulator
holds the current token reversed. -/
def splitWsAux : List Char → List Char → List (List Char)
  | [], acc => if acc = [] then [] else [acc.reverse]
  | c :: cs, acc =>
    if c = ' ' then
      if acc = [] then splitWsAux cs [] else acc.reverse :: splitWsAux cs []
    else splitWsAux cs (c :: acc)

/-- x.split() of Python, for x a character list. -/
def splitWs (x : List Char) : List (List Char) := splitWsAux x []

/-- Python int() on a nonnegative decimal token: the value of the digit
string, or a ValueError (none) on an empty or non-digit token. -/
def digitsToNatAux (acc : ℕ) : List Char → Option ℕ
  | [] => some acc
  | c :: cs =>
    if c.isDigit then digitsToNatAux (acc * 10 + (c.toNat - 48)) cs else none

/-- int(token), failing on the empty token. -/
def toNatDigits (s : List Char) : Option ℕ :=
  match s with
  | [] => none
  | _ :: _ => digitsToNatAux 0 s

/-- pat is a prefix of the second list. -/
def beginsWith : List Char → List Char → Bool
  | [], _ => true
  | _ :: _, [] => false
  | p :: ps, c :: cs => p == c && beginsWith ps cs

/-- Python substring containment pat in x. -/
def containsSub (pat : List Char) : List Char → Bool
  | [] => beginsWith pat []
  | c :: cs => beginsWith pat (c :: cs) || containsSub pat cs

/-- The literal "month" tested by the in operator on line 53. -/
def monthChars : List Char := ['m', 'o', 'n', 't', 'h']

/-- Python round(v, 3) embedded on exact rationals: round to an integer
number of thousandths.  Mathlib round is round-half-up while Python floats
round half to even, but for the values Y + M/12 produced here the
thousandths count has fractional part 0, 1/3 or 2/3, never 1/2, so the two
agree. -/
def round3 (q : ℚ) : ℚ := (round (q * 1000) : ℚ) / 1000

/-- Embedding of the remaining-lease cleaning lambda (data_cleaning.py
lines 52-54): round(int(x.split()[0]) + (int(x.split()[2]) if "month" in x
else 0)/12, 3).  A missing token (IndexError) or a non-numeric token
(ValueError) raises, embedded as none. -/
def clean_remaining_lease (x : List Char) : Option ℚ :=
  match (splitWs x)[0]? with
  | none => none
  | some t0 =>
    match toNatDigits t0 with
    | none => none
    | some y =>
      if containsSub monthChars x then
        match (splitWs x)[2]? with
        | none => none
        | some t2 =>
          match toNatDigits t2 with
          | none => none
          | some m => some (round3 ((y : ℚ) + (m : ℚ) / 12))
      else some (round3 ((y : ℚ) + 0 / 12))

theorem round3_nat (y : ℕ) : round3 ((y : ℚ)) = (y : ℚ) := by
  unfold round3
  have h1 : (y : ℚ) * 1000 = ((y * 1000 : ℕ) : ℚ) := by
    push_cast
    ring
  rw [h1, round_natCast]
  push_cast
  field_simp

/-- Claim C9: for every remaining-lease string of the form
"<Y> years <M> months" (first and third whitespace-separated tokens
numeric, the substring month present) the cleaning transform produces
Y + M/12 rounded to 3 decimal places, and for the form "<Y> years" (no
month substring, first token numeric) it produces exactly Y; in
particular "61 years 4 months" yields 61.333 and "61 years" yields 61. -/
theorem clean_remaining_lease_spec :
    (∀ (x t0 t2 : List Char) (y m : ℕ),
      (splitWs x)[0]? = some t0 → toNatDigits t0 = some y →
      (splitWs x)[2]? = some t2 → toNatDigits t2 = some m →
      containsSub monthChars x = true →
      clean_remaining_lease x = some (round3 ((y : ℚ) + (m : ℚ) / 12))) ∧
    (∀ (x t0 : List Char) (y : ℕ),
      (splitWs x)[0]? = some t0 → toNatDigits t0 = some y →
      containsSub monthChars x = false →
      clean_remaining_lease x = some ((y : ℚ))) ∧
    clean_remaining_lease "61 years 4 months".data = some (61333 / 1000) ∧
    clean_remaining_lease "61 years".data = some 61 := by
  refine ⟨?_, ?_, ?_, ?_⟩
  · intro x t0 t2 y m h0 hy h2 hm hc
    simp [clean_remaining_lease, h0, hy, h2, hm, hc]
  · intro x t0 y h0 hy hc
    simp [clean_remaining_lease, h0, hy, hc, round3_nat]
  · have hsplit : splitWs "61 years 4 months".data =
        [['6', '1'], ['y', 'e', 'a', 'r', 's'], ['4'],
         ['m', 'o', 'n', 't', 'h', 's']] := by decide
    have hc : containsSub monthChars "61 years 4 months".data = true := by decide
    have h61 : toNatDigits ['6', '1'] = some 61 := by decide
    have h4 : toNatDigits ['4'] = some 4 := by decide
    simp [clean_remaining_lease, hsplit, hc, h61, h4]
    norm_num [round3, round_eq]
  · have hsplit : splitWs "61 years".data = [['6', '1'], ['y', 'e', 'a', 'r', 's']] := by
      decide
    have hc : containsSub monthChars "61 years".data = false := by decide
    have h61 : toNatDigits ['6', '1'] = some 61 := by decide
    simp [clean_remaining_lease, hsplit, hc, h61]
    norm_num [round3, round_eq]

/-- Witness for C9 at the concrete input of the claim: "61 years 4 months"
parses to 61 + 4/12 rounded to 3 decimal places. -/
theorem clean_remaining_lease_witness :
    clean_remaining_lease "61 years 4 months".data =
      some (round3 ((61 : ℚ) + (4 : ℚ) / 12)) :=
  clean_remaining_lease_spec.1 "61 years 4 months".data ['6', '1'] ['4'] 61 4
    (by decide) (by decide) (by decide) (by decide) (by decide)

end HDB
